import Mathlib

/-!
Verification of the behavior-tree core of the Fyrox repository
(`src/utils/behavior/mod.rs`) and of its command-stack collaborator
(`src/command.rs`), as a shallow embedding in Lean 4.

Conventions of the embedding:
* Rust `&mut` state is threaded explicitly: a behavior's
  `fn tick(&mut self, context: &mut Ctx) -> Status` becomes a pure function
  `B → Ctx → Status × B × Ctx`.
* Panics (`unreachable!`, `unwrap` on `None`, panicking `Index` on an invalid
  handle) are represented by error values (`Except`/`Option.none`), never by a
  `Status`.
* The recursive tick receives a fuel parameter; `TickErr.fuel` marks fuel
  exhaustion (the Rust recursion diverges only on cyclic handle graphs, which
  the API never builds).
-/

namespace Fyrox

/-- Status of execution of behavior tree node (enum `Status` in
`src/utils/behavior/mod.rs`). -/
inductive Status where
  /-- Action was successful. -/
  | Success
  /-- Failed to perform an action. -/
  | Failure
  /-- Need another iteration to perform an action. -/
  | Running
deriving DecidableEq, Repr

/-- Modelled from the spec: a node handle is "an opaque reference to a node
slot in the arena; carries an index plus a generation/version tag to detect
stale references after a slot is reused" (`Handle` of `core::pool`, not under
`src/`). -/
structure Handle where
  index : Nat
  generation : Nat
deriving DecidableEq, Repr

/-- Modelled from the spec: the null handle ("a handle may be null (no node),
used to represent no child"); it is the `Default::default()` handle. -/
def Handle.NONE : Handle := ⟨0, 0⟩

/-- Modelled from the spec: a handle is "some" when it is not the null
handle (`Handle::is_some`). -/
def Handle.is_some (h : Handle) : Bool := h ≠ Handle.NONE

/-- Modelled from the spec: one slot of the arena, holding a version tag and
an optional payload. -/
structure PoolRecord (α : Type) where
  generation : Nat
  payload : Option α
deriving DecidableEq, Repr

/-- Modelled from the spec: the node arena, "an append/reuse container mapping
handle to node" (`Pool` of `core::pool`, not under `src/`); this core never
frees slots, so insertion only appends. -/
structure Pool (α : Type) where
  records : List (PoolRecord α)
deriving DecidableEq, Repr

namespace Pool

/-- Modelled from the spec: the empty arena. -/
def empty (α : Type) : Pool α := ⟨[]⟩

/-- Modelled from the spec: `insert(node) -> Handle` "stores a node and
returns a stable handle"; since this core never frees slots, the new record is
appended and tagged with generation 1. -/
def spawn (p : Pool α) (a : α) : Pool α × Handle :=
  (⟨p.records ++ [⟨1, some a⟩]⟩, ⟨p.records.length, 1⟩)

/-- Modelled from the spec: `get(handle)` "returns a reference if the handle
is currently valid, or an absent result if the handle's index is out of range
or its version tag does not match the stored slot's version"
(`Pool::try_borrow`). -/
def try_borrow (p : Pool α) (h : Handle) : Option α :=
  match p.records[h.index]? with
  | none => none
  | some r => if r.generation = h.generation then r.payload else none

/-- Modelled from the spec: writing through the mutable borrow of a slot's
payload (the `RefCell` write a leaf performs on its behavior); the slot keeps
its version tag. -/
def setPayload (p : Pool α) (i : Nat) (a : α) : Pool α :=
  match p.records[i]? with
  | none => p
  | some r => ⟨p.records.set i ⟨r.generation, some a⟩⟩

end Pool

/-- Root node of the tree (struct `RootNode`, `src/utils/behavior/mod.rs`);
holds the single entry child handle. -/
structure RootNode where
  child : Handle
deriving DecidableEq, Repr

/-- Kind of a composite node (enum `CompositeNodeKind`, declared in the
`composite` submodule which is not under `src/`; both variants are named and
matched in `src/utils/behavior/mod.rs`). -/
inductive CompositeNodeKind where
  | Sequence
  | Selector
deriving DecidableEq, Repr

/-- Composite node (struct `CompositeNode`, declared in the `composite`
submodule which is not under `src/`; per the spec it "holds a kind tag
(Sequence | Selector) and an ordered sequence of child handles", exactly the
fields `kind` and `children` read by `tick_recursive`). -/
structure CompositeNode where
  kind : CompositeNodeKind
  children : List Handle
deriving DecidableEq, Repr

/-- Leaf node (struct `LeafNode`, declared in the `leaf` submodule which is
not under `src/`; `tick_recursive` reads its field as
`leaf.behavior.as_ref().unwrap().borrow_mut()`, so the behavior payload is an
optional shared cell, modelled as `Option B`). -/
structure LeafNode (B : Type) where
  behavior : Option B
deriving DecidableEq, Repr

/-- Possible variations of behavior nodes (enum `BehaviorNode`,
`src/utils/behavior/mod.rs`). -/
inductive BehaviorNode (B : Type) where
  | Unknown
  | Root (root : RootNode)
  | Composite (composite : CompositeNode)
  | Leaf (leaf : LeafNode B)
deriving DecidableEq, Repr

/-- Behavior tree (struct `BehaviorTree`, `src/utils/behavior/mod.rs`): owns
the node arena and the handle of the root node. -/
structure BehaviorTree (B : Type) where
  nodes : Pool (BehaviorNode B)
  root : Handle
deriving DecidableEq, Repr

/-- Abnormal outcomes of the embedded tick: the three panic sites of
`tick_recursive` (panicking `Pool` indexing on an invalid handle, `unwrap` of
an absent leaf behavior, `unreachable!()` on `Unknown`) plus fuel
exhaustion of the embedding. -/
inductive TickErr where
  | invalidHandle
  | missingBehavior
  | unknownNode
  | fuel
deriving DecidableEq, Repr

namespace BehaviorTree

/-- Creates new behavior tree with single root node
(`BehaviorTree::new`). -/
def new (B : Type) : BehaviorTree B :=
  let s := (Pool.empty (BehaviorNode B)).spawn (.Root ⟨Handle.NONE⟩)
  ⟨s.1, s.2⟩

/-- Adds a node to the tree, returns its handle
(`BehaviorTree::add_node`). -/
def add_node (t : BehaviorTree B) (n : BehaviorNode B) :
    BehaviorTree B × Handle :=
  let s := t.nodes.spawn n
  (⟨s.1, t.root⟩, s.2)

/-- Sets the entry node of the tree (`BehaviorTree::set_entry_node`):
overwrites the root node's child with the given handle. `none` models the
aborts: the panicking indexing `self.nodes[self.root]` on an invalid root
handle, and `unreachable!("must be root")` when the root slot does not hold a
`Root` variant. -/
def set_entry_node (t : BehaviorTree B) (entry : Handle) :
    Option (BehaviorTree B) :=
  match t.nodes.try_borrow t.root with
  | some (.Root _) =>
      some ⟨t.nodes.setPayload t.root.index (.Root ⟨entry⟩), t.root⟩
  | _ => none

/-- Tries to get a shared reference to a node by given handle
(`BehaviorTree::node`, delegating to `Pool::try_borrow`). -/
def node (t : BehaviorTree B) (h : Handle) : Option (BehaviorNode B) :=
  t.nodes.try_borrow h

/-- Tries to get a mutable reference to a node by given handle
(`BehaviorTree::node_mut`, delegating to `Pool::try_borrow_mut`, which per the
spec returns a reference under exactly the same validity condition as
`try_borrow`). -/
def node_mut (t : BehaviorTree B) (h : Handle) : Option (BehaviorNode B) :=
  t.nodes.try_borrow h

/-- Indexing a tree by a handle (`impl Index for BehaviorTree`,
`src/utils/behavior/mod.rs`), which delegates to the panicking `Pool`
indexing: `none` models the panic on an invalid handle. -/
def indexOp (t : BehaviorTree B) (h : Handle) : Option (BehaviorNode B) :=
  t.nodes.try_borrow h

end BehaviorTree

/-- One step of the Sequence arm's `for` loop of
`BehaviorTree::tick_recursive`: tick each child in stored order; `Failure`
clears `all_succeeded` and breaks (so the composite returns `Failure`),
`Running` returns `Running` immediately, `Success` continues; an exhausted
loop returns `Success` (`all_succeeded` still true). `tick1` is the recursive
tick at the current depth. -/
def seqLoop
    (tick1 : Pool (BehaviorNode B) → Handle → Ctx →
      Except TickErr (Status × Pool (BehaviorNode B) × Ctx)) :
    Pool (BehaviorNode B) → List Handle → Ctx →
      Except TickErr (Status × Pool (BehaviorNode B) × Ctx)
  | nodes, [], ctx => .ok (.Success, nodes, ctx)
  | nodes, child :: rest, ctx =>
    match tick1 nodes child ctx with
    | .error e => .error e
    | .ok (.Failure, nodes1, ctx1) => .ok (.Failure, nodes1, ctx1)
    | .ok (.Running, nodes1, ctx1) => .ok (.Running, nodes1, ctx1)
    | .ok (.Success, nodes1, ctx1) => seqLoop tick1 nodes1 rest ctx1

/-- One step of the Selector arm's `for` loop of
`BehaviorTree::tick_recursive`: tick each child in stored order; `Success`
or `Running` returns immediately, `Failure` continues; an exhausted loop
returns `Failure`. -/
def selLoop
    (tick1 : Pool (BehaviorNode B) → Handle → Ctx →
      Except TickErr (Status × Pool (BehaviorNode B) × Ctx)) :
    Pool (BehaviorNode B) → List Handle → Ctx →
      Except TickErr (Status × Pool (BehaviorNode B) × Ctx)
  | nodes, [], ctx => .ok (.Failure, nodes, ctx)
  | nodes, child :: rest, ctx =>
    match tick1 nodes child ctx with
    | .error e => .error e
    | .ok (.Success, nodes1, ctx1) => .ok (.Success, nodes1, ctx1)
    | .ok (.Running, nodes1, ctx1) => .ok (.Running, nodes1, ctx1)
    | .ok (.Failure, nodes1, ctx1) => selLoop tick1 nodes1 rest ctx1

/-- Recursive tick (`BehaviorTree::tick_recursive`,
`src/utils/behavior/mod.rs` lines 126-177), fueled. `tickB` is the behavior
contract's `fn tick(&mut self, context: &mut Ctx) -> Status` with the `&mut`
state threaded explicitly; the leaf arm writes the updated behavior back
through its slot (the `RefCell` write). -/
def tick_recursive (tickB : B → Ctx → Status × B × Ctx) :
    Nat → Pool (BehaviorNode B) → Handle → Ctx →
      Except TickErr (Status × Pool (BehaviorNode B) × Ctx)
  | 0, _, _, _ => .error .fuel
  | fuel + 1, nodes, handle, ctx =>
    match nodes.try_borrow handle with
    | none => .error .invalidHandle
    | some (.Root root) =>
        if root.child.is_some then
          tick_recursive tickB fuel nodes root.child ctx
        else
          .ok (.Success, nodes, ctx)
    | some (.Composite composite) =>
        match composite.kind with
        | .Sequence => seqLoop (tick_recursive tickB fuel) nodes composite.children ctx
        | .Selector => selLoop (tick_recursive tickB fuel) nodes composite.children ctx
    | some (.Leaf leaf) =>
        match leaf.behavior with
        | none => .error .missingBehavior
        | some b =>
            let r := tickB b ctx
            .ok (r.1, nodes.setPayload handle.index (.Leaf ⟨some r.2.1⟩), r.2.2)
    | some .Unknown => .error .unknownNode

/-- Performs a single update tick with given context (`BehaviorTree::tick`):
recursive tick starting from the root handle. -/
def BehaviorTree.tick (tickB : B → Ctx → Status × B × Ctx) (fuel : Nat)
    (t : BehaviorTree B) (ctx : Ctx) :
    Except TickErr (Status × Pool (BehaviorNode B) × Ctx) :=
  tick_recursive tickB fuel t.nodes t.root ctx

/-- Command stack (struct `CommandStack`, `src/command.rs`): an ordered
history of commands and an optional cursor `top`. -/
structure CommandStack (C : Type) where
  commands : List C
  top : Option Nat
deriving DecidableEq, Repr

namespace CommandStack

/-- Creates an empty command stack (`CommandStack::new`). -/
def new (C : Type) : CommandStack C := ⟨[], none⟩

/-- Undo (`CommandStack::undo`, `src/command.rs` lines 51-66): on a non-empty
history with cursor `Some top`, revert the command at index `top` (if that
index exists), then set the cursor to `None` when `top` was 0, else decrement
it. `revertC` is `Command::revert` with the `&mut` state threaded
explicitly. -/
def undo (revertC : C → Ctx → C × Ctx) (s : CommandStack C) (ctx : Ctx) :
    CommandStack C × Ctx :=
  if s.commands.isEmpty then (s, ctx)
  else
    match s.top with
    | none => (s, ctx)
    | some top =>
        let step :=
          match s.commands[top]? with
          | some c =>
              let r := revertC c ctx
              (s.commands.set top r.1, r.2)
          | none => (s.commands, ctx)
        (⟨step.1, if top = 0 then none else some (top - 1)⟩, step.2)

/-- Redo (`CommandStack::redo`, `src/command.rs` lines 68-93): on a non-empty
history, when the cursor is `None` set it to `Some 1` and execute the first
command; when it is `Some top` with `top < len`, execute the command at index
`top` and increment the cursor; otherwise do nothing. `execC` is
`Command::execute` with the `&mut` state threaded explicitly. -/
def redo (execC : C → Ctx → C × Ctx) (s : CommandStack C) (ctx : Ctx) :
    CommandStack C × Ctx :=
  if s.commands.isEmpty then (s, ctx)
  else
    match s.top with
    | none =>
        match s.commands with
        | [] => (⟨s.commands, some 1⟩, ctx)
        | c :: rest =>
            let r := execC c ctx
            (⟨r.1 :: rest, some 1⟩, r.2)
    | some top =>
        if top < s.commands.length then
          match s.commands[top]? with
          | some c =>
              let r := execC c ctx
              (⟨s.commands.set top r.1, some (top + 1)⟩, r.2)
          | none => (⟨s.commands, some (top + 1)⟩, ctx)
        else (s, ctx)

end CommandStack

/-!
Spec-side aggregation functions, written from the spec's words for comparison
with the code's loops: Sequence is short-circuit AND (first Failure or
Running wins, all Success gives Success), Selector is short-circuit OR (first
Success or Running wins, all Failure gives Failure).
-/

/-- Spec-side Sequence aggregation over the list of statuses the children
would yield in stored order. -/
def seqSpec : List Status → Status
  | [] => .Success
  | .Success :: rest => seqSpec rest
  | .Failure :: _ => .Failure
  | .Running :: _ => .Running

/-- Spec-side Selector aggregation over the list of statuses the children
would yield in stored order. -/
def selSpec : List Status → Status
  | [] => .Failure
  | .Failure :: rest => selSpec rest
  | .Success :: _ => .Success
  | .Running :: _ => .Running

/-- A scripted test behavior: it has an identity and a fixed status; its tick
records the identity in the context (an invocation log) and returns the
status, leaving the behavior itself unchanged. -/
structure ScriptedBehavior where
  ident : Nat
  status : Status
deriving DecidableEq, Repr

/-- Tick of a scripted behavior: append its identity to the log, return its
scripted status. -/
def scriptedTick (b : ScriptedBehavior) (log : List Nat) :
    Status × ScriptedBehavior × List Nat :=
  (b.status, b, log ++ [b.ident])

/-- Spec-side list of child identities a Sequence evaluates: every child up
to and including the first one whose status is not Success. -/
def seqEvaluated : List ScriptedBehavior → List Nat
  | [] => []
  | b :: rest =>
    match b.status with
    | .Success => b.ident :: seqEvaluated rest
    | _ => [b.ident]

/-- Spec-side list of child identities a Selector evaluates: every child up
to and including the first one whose status is not Failure. -/
def selEvaluated : List ScriptedBehavior → List Nat
  | [] => []
  | b :: rest =>
    match b.status with
    | .Failure => b.ident :: selEvaluated rest
    | _ => [b.ident]

/-- Pool of a test tree for the composite claims: the root node at slot 0
pointing at the composite, one leaf per scripted behavior at slots 1 to `n`,
and the composite node at slot `n + 1` whose children are the leaf handles in
script order. -/
def scriptPool (kind : CompositeNodeKind) (scripts : List ScriptedBehavior) :
    Pool (BehaviorNode ScriptedBehavior) :=
  ⟨⟨1, some (.Root ⟨⟨scripts.length + 1, 1⟩⟩)⟩ ::
    (scripts.map fun sc => ⟨1, some (.Leaf ⟨some sc⟩)⟩) ++
    [⟨1, some (.Composite ⟨kind,
      (List.range scripts.length).map fun i => ⟨i + 1, 1⟩⟩)⟩]⟩

/-- Test tree for the composite claims, rooted at slot 0. -/
def scriptTree (kind : CompositeNodeKind) (scripts : List ScriptedBehavior) :
    BehaviorTree ScriptedBehavior :=
  ⟨scriptPool kind scripts, ⟨0, 1⟩⟩

/-- Concrete one-slot arena under version tag 2, for handle-validity
tests. -/
def genPool : Pool (BehaviorNode Unit) := ⟨[⟨2, some (.Root ⟨Handle.NONE⟩)⟩]⟩

/-- Concrete tree over `genPool`. -/
def genTree : BehaviorTree Unit := ⟨genPool, ⟨0, 2⟩⟩

/-- The tree's root slot holds a Root variant (the precondition of
`set_entry_node`). -/
def rootOk (t : BehaviorTree B) : Prop :=
  ∃ c, t.nodes.try_borrow t.root = some (.Root ⟨c⟩)

/-- Trees produced only through the construction API: `new`, then any
sequence of `add_node` and successful `set_entry_node` calls. -/
inductive Built (B : Type) : BehaviorTree B → Prop where
  | new : Built B (BehaviorTree.new B)
  | add (t : BehaviorTree B) (n : BehaviorNode B) :
      Built B t → Built B (t.add_node n).1
  | set (t t' : BehaviorTree B) (e : Handle) :
      Built B t → t.set_entry_node e = some t' → Built B t'

/-- Trees produced only through the construction API where every node passed
to `add_node` is a non-Unknown variant. -/
inductive BuiltNU (B : Type) : BehaviorTree B → Prop where
  | new : BuiltNU B (BehaviorTree.new B)
  | add (t : BehaviorTree B) (n : BehaviorNode B) :
      BuiltNU B t → n ≠ .Unknown → BuiltNU B (t.add_node n).1
  | set (t t' : BehaviorTree B) (e : Handle) :
      BuiltNU B t → t.set_entry_node e = some t' → BuiltNU B t'

/-- Topological shape of a node: everything except the value of a leaf's
behavior payload (its presence is kept). -/
def nodeShape : BehaviorNode B → BehaviorNode Unit
  | .Unknown => .Unknown
  | .Root r => .Root r
  | .Composite c => .Composite c
  | .Leaf l => .Leaf ⟨l.behavior.map fun _ => ()⟩

/-- Topological shape of an arena slot: version tag and payload shape. -/
def recordShape (r : PoolRecord (BehaviorNode B)) :
    PoolRecord (BehaviorNode Unit) :=
  ⟨r.generation, r.payload.map nodeShape⟩

/-- Topological shape of the whole arena: slot count, version tags, node
variants, root children, composite kinds and child lists, and leaf payload
presence — everything except leaf behavior values. -/
def poolShape (p : Pool (BehaviorNode B)) : Pool (BehaviorNode Unit) :=
  ⟨p.records.map recordShape⟩

/-- No slot of the arena holds an Unknown node. -/
def Pool.noUnknown (p : Pool (BehaviorNode B)) : Prop :=
  ∀ r ∈ p.records, r.payload ≠ some .Unknown

/-- Behavior used by the frame-effect counterexample: it increments its own
stored state and succeeds. -/
def counterTick (n : Nat) (_ : Unit) : Status × Nat × Unit :=
  (.Success, n + 1, ())

/-- Pool of the frame-effect counterexample: a root whose child is a single
leaf with behavior state 0. -/
def counterPool : Pool (BehaviorNode Nat) :=
  ⟨[⟨1, some (.Root ⟨⟨1, 1⟩⟩)⟩, ⟨1, some (.Leaf ⟨some 0⟩)⟩]⟩

/-- Tree of the frame-effect counterexample. -/
def counterTree : BehaviorTree Nat := ⟨counterPool, ⟨0, 1⟩⟩

/-- Pool of the frame-effect counterexample after one tick: the leaf's
stored behavior state advanced to 1. -/
def counterPoolAfter : Pool (BehaviorNode Nat) :=
  ⟨[⟨1, some (.Root ⟨⟨1, 1⟩⟩)⟩, ⟨1, some (.Leaf ⟨some 1⟩)⟩]⟩

/-- The handles of a list are, in order, leaves of the pool holding the
scripted behaviors of the other list. -/
def leavesAt (p : Pool (BehaviorNode ScriptedBehavior))
    (hs : List Handle) (scripts : List ScriptedBehavior) : Prop :=
  List.Forall₂ (fun h sc => p.try_borrow h = some (.Leaf ⟨some sc⟩)) hs scripts

/-- A handle is currently valid for an arena when its index is in range, the
slot's version tag matches the handle's, and the slot holds a payload. -/
def Pool.validAt (p : Pool α) (h : Handle) : Prop :=
  ∃ r, p.records[h.index]? = some r ∧ r.generation = h.generation ∧
    r.payload.isSome = true

/-!
Helper lemmas: one reduction lemma per arm of `tick_recursive`, and basic
facts about the arena operations.
-/

/-- Setting a list entry to the value it already holds changes nothing. -/
theorem list_set_of_getElem? {α : Type} {l : List α} {i : Nat} {a : α}
    (h : l[i]? = some a) : l.set i a = l := by
  induction l generalizing i with
  | nil => simp at h
  | cons x xs ih =>
    cases i with
    | zero =>
        simp only [List.getElem?_cons_zero, Option.some.injEq] at h
        simp [h]
    | succ n =>
        simp only [List.getElem?_cons_succ] at h
        simp [ih h]

/-- Writing back through a slot the exact payload it already holds leaves the
arena unchanged. -/
theorem Pool.setPayload_of_try_borrow {α : Type} {p : Pool α} {h : Handle}
    {a : α} (hb : p.try_borrow h = some a) : p.setPayload h.index a = p := by
  unfold Pool.try_borrow at hb
  unfold Pool.setPayload
  cases hrec : p.records[h.index]? with
  | none => simp [hrec] at hb
  | some r =>
    simp only [hrec] at hb ⊢
    by_cases hg : r.generation = h.generation
    · rw [if_pos hg] at hb
      cases r with
      | mk g pl =>
        cases hb
        cases p with
        | mk records => simp [list_set_of_getElem? hrec]
    · rw [if_neg hg] at hb; cases hb

/-- Reduction of the tick at an invalid handle: the panicking indexing. -/
theorem tick_invalid {B Ctx : Type} (tickB : B → Ctx → Status × B × Ctx)
    {p : Pool (BehaviorNode B)} {h : Handle} (f : Nat) (ctx : Ctx)
    (hb : p.try_borrow h = none) :
    tick_recursive tickB (f + 1) p h ctx = .error .invalidHandle := by
  unfold tick_recursive; rw [hb]

/-- Reduction of the tick at a root node with a non-null child: recurse into
the child. -/
theorem tick_root_some {B Ctx : Type} (tickB : B → Ctx → Status × B × Ctx)
    {p : Pool (BehaviorNode B)} {h c : Handle} (f : Nat) (ctx : Ctx)
    (hb : p.try_borrow h = some (.Root ⟨c⟩)) (hc : c.is_some = true) :
    tick_recursive tickB (f + 1) p h ctx = tick_recursive tickB f p c ctx := by
  conv_lhs => unfold tick_recursive
  rw [hb]; simp [hc]

/-- Reduction of the tick at a root node with a null child: vacuous
success. -/
theorem tick_root_none {B Ctx : Type} (tickB : B → Ctx → Status × B × Ctx)
    {p : Pool (BehaviorNode B)} {h c : Handle} (f : Nat) (ctx : Ctx)
    (hb : p.try_borrow h = some (.Root ⟨c⟩)) (hc : c.is_some = false) :
    tick_recursive tickB (f + 1) p h ctx = .ok (.Success, p, ctx) := by
  unfold tick_recursive; rw [hb]; simp [hc]

/-- Reduction of the tick at a Sequence composite: the short-circuit AND
loop over the stored children. -/
theorem tick_comp_seq {B Ctx : Type} (tickB : B → Ctx → Status × B × Ctx)
    {p : Pool (BehaviorNode B)} {h : Handle} {cs : List Handle} (f : Nat)
    (ctx : Ctx) (hb : p.try_borrow h = some (.Composite ⟨.Sequence, cs⟩)) :
    tick_recursive tickB (f + 1) p h ctx =
      seqLoop (tick_recursive tickB f) p cs ctx := by
  unfold tick_recursive; rw [hb]

/-- Reduction of the tick at a Selector composite: the short-circuit OR
loop over the stored children. -/
theorem tick_comp_sel {B Ctx : Type} (tickB : B → Ctx → Status × B × Ctx)
    {p : Pool (BehaviorNode B)} {h : Handle} {cs : List Handle} (f : Nat)
    (ctx : Ctx) (hb : p.try_borrow h = some (.Composite ⟨.Selector, cs⟩)) :
    tick_recursive tickB (f + 1) p h ctx =
      selLoop (tick_recursive tickB f) p cs ctx := by
  unfold tick_recursive; rw [hb]

/-- Reduction of the tick at a leaf with a behavior payload: delegate to the
behavior's tick, write the updated behavior back through the slot, and
return the behavior's status unchanged. -/
theorem tick_leaf {B Ctx : Type} (tickB : B → Ctx → Status × B × Ctx)
    {p : Pool (BehaviorNode B)} {h : Handle} {b : B} (f : Nat) (ctx : Ctx)
    (hb : p.try_borrow h = some (.Leaf ⟨some b⟩)) :
    tick_recursive tickB (f + 1) p h ctx =
      .ok ((tickB b ctx).1,
        p.setPayload h.index (.Leaf ⟨some (tickB b ctx).2.1⟩),
        (tickB b ctx).2.2) := by
  unfold tick_recursive; rw [hb]

/-- Reduction of the tick at a leaf with an absent behavior payload: the
`unwrap` panic. -/
theorem tick_leaf_missing {B Ctx : Type} (tickB : B → Ctx → Status × B × Ctx)
    {p : Pool (BehaviorNode B)} {h : Handle} (f : Nat) (ctx : Ctx)
    (hb : p.try_borrow h = some (.Leaf ⟨none⟩)) :
    tick_recursive tickB (f + 1) p h ctx = .error .missingBehavior := by
  unfold tick_recursive; rw [hb]

/-- Reduction of the tick at an Unknown node: the `unreachable!()` panic. -/
theorem tick_unknown {B Ctx : Type} (tickB : B → Ctx → Status × B × Ctx)
    {p : Pool (BehaviorNode B)} {h : Handle} (f : Nat) (ctx : Ctx)
    (hb : p.try_borrow h = some .Unknown) :
    tick_recursive tickB (f + 1) p h ctx = .error .unknownNode := by
  unfold tick_recursive; rw [hb]

/-!
Scripted test trees: a pool of leaves with scripted statuses driven by an
invocation-logging context, used to observe evaluation order and
short-circuiting.
-/

/-- Ticking a scripted leaf returns its scripted status, appends its identity
to the log, and leaves the arena unchanged. -/
theorem tick_leaf_scripted {p : Pool (BehaviorNode ScriptedBehavior)}
    {h : Handle} {sc : ScriptedBehavior}
    (hb : p.try_borrow h = some (.Leaf ⟨some sc⟩)) (f : Nat)
    (log : List Nat) :
    tick_recursive scriptedTick (f + 1) p h log =
      .ok (sc.status, p, log ++ [sc.ident]) := by
  rw [tick_leaf scriptedTick f log hb]
  simp [scriptedTick, Pool.setPayload_of_try_borrow hb]

/-- The Sequence loop over scripted leaves returns the spec-side AND
aggregate, leaves the arena unchanged, and logs exactly the spec-side
evaluated prefix in stored order. -/
theorem seqLoop_scripted {p : Pool (BehaviorNode ScriptedBehavior)}
    {hs : List Handle} {scripts : List ScriptedBehavior}
    (hl : leavesAt p hs scripts) (f : Nat) :
    ∀ log : List Nat,
      seqLoop (tick_recursive scriptedTick (f + 1)) p hs log =
        .ok (seqSpec (scripts.map ScriptedBehavior.status), p,
          log ++ seqEvaluated scripts) := by
  induction hl with
  | nil => intro log; simp [seqLoop, seqSpec, seqEvaluated]
  | cons hrel hrest ih =>
    rename_i h sc hs1 scripts1
    intro log
    simp only [seqLoop, tick_leaf_scripted hrel f log]
    cases hst : sc.status with
    | Success =>
        simp only [List.map_cons, seqSpec, seqEvaluated, hst, ih]
        simp
    | Failure => simp [seqSpec, seqEvaluated, hst]
    | Running => simp [seqSpec, seqEvaluated, hst]

/-- The Selector loop over scripted leaves returns the spec-side OR
aggregate, leaves the arena unchanged, and logs exactly the spec-side
evaluated prefix in stored order. -/
theorem selLoop_scripted {p : Pool (BehaviorNode ScriptedBehavior)}
    {hs : List Handle} {scripts : List ScriptedBehavior}
    (hl : leavesAt p hs scripts) (f : Nat) :
    ∀ log : List Nat,
      selLoop (tick_recursive scriptedTick (f + 1)) p hs log =
        .ok (selSpec (scripts.map ScriptedBehavior.status), p,
          log ++ selEvaluated scripts) := by
  induction hl with
  | nil => intro log; simp [selLoop, selSpec, selEvaluated]
  | cons hrel hrest ih =>
    rename_i h sc hs1 scripts1
    intro log
    simp only [selLoop, tick_leaf_scripted hrel f log]
    cases hst : sc.status with
    | Failure =>
        simp only [List.map_cons, selSpec, selEvaluated, hst, ih]
        simp
    | Success => simp [selSpec, selEvaluated, hst]
    | Running => simp [selSpec, selEvaluated, hst]

/-- Slot 0 of a scripted pool holds the root node, whose child is the
composite at slot `n + 1`. -/
theorem scriptPool_root (kind : CompositeNodeKind)
    (scripts : List ScriptedBehavior) :
    (scriptPool kind scripts).try_borrow ⟨0, 1⟩ =
      some (.Root ⟨⟨scripts.length + 1, 1⟩⟩) := by
  simp [scriptPool, Pool.try_borrow]

/-- Slot `n + 1` of a scripted pool holds the composite whose children are
the leaf handles in script order. -/
theorem scriptPool_comp (kind : CompositeNodeKind)
    (scripts : List ScriptedBehavior) :
    (scriptPool kind scripts).try_borrow ⟨scripts.length + 1, 1⟩ =
      some (.Composite ⟨kind,
        (List.range scripts.length).map fun i => ⟨i + 1, 1⟩⟩) := by
  simp only [scriptPool, Pool.try_borrow, List.getElem?_cons_succ]
  rw [List.getElem?_append_right (by simp)]
  simp

/-- Slot `i + 1` of a scripted pool holds the leaf wrapping the `i`-th
scripted behavior. -/
theorem scriptPool_leaf (kind : CompositeNodeKind)
    {scripts : List ScriptedBehavior} {i : Nat} {sc : ScriptedBehavior}
    (hi : scripts[i]? = some sc) :
    (scriptPool kind scripts).try_borrow ⟨i + 1, 1⟩ =
      some (.Leaf ⟨some sc⟩) := by
  have hlen : i < scripts.length := by
    by_contra hge
    rw [List.getElem?_eq_none (Nat.le_of_not_lt hge)] at hi
    cases hi
  simp only [scriptPool, Pool.try_borrow, List.getElem?_cons_succ]
  rw [List.getElem?_append_left (by simpa using hlen)]
  simp [hi]

/-- The composite's child handles of a scripted pool point, in order, at the
leaves wrapping the scripted behaviors. -/
theorem scriptPool_leavesAt (kind : CompositeNodeKind)
    (scripts : List ScriptedBehavior) :
    leavesAt (scriptPool kind scripts)
      ((List.range scripts.length).map fun i => ⟨i + 1, 1⟩) scripts := by
  unfold leavesAt
  rw [List.forall₂_map_left_iff]
  rw [List.forall₂_iff_get]
  constructor
  · simp
  · intro i h1 h2
    simp only [List.get_eq_getElem, List.getElem_range]
    exact scriptPool_leaf kind (List.getElem?_eq_getElem h2)

/-- C1: for every Sequence composite node, the tick evaluates the children in
their stored order with short-circuit AND semantics: the first child
returning Failure makes the composite result Failure and no later child is
evaluated that tick, the first child returning Running makes the result
Running and no later child is evaluated, and if every child returns Success
the result is Success. First conjunct: the Sequence arm of `tick_recursive`
is exactly the ordered short-circuit loop over the stored children. Second
conjunct: for every list of scripted children, the tick returns the
spec-side AND aggregate of the children's statuses and the invocation log
records exactly the children up to and including the first non-Success one,
in stored order. -/
theorem spec_C1_sequence_semantics :
    (∀ (B Ctx : Type) (tickB : B → Ctx → Status × B × Ctx) (f : Nat)
        (p : Pool (BehaviorNode B)) (h : Handle) (cs : List Handle)
        (ctx : Ctx),
        p.try_borrow h = some (.Composite ⟨.Sequence, cs⟩) →
        tick_recursive tickB (f + 1) p h ctx =
          seqLoop (tick_recursive tickB f) p cs ctx) ∧
    (∀ (scripts : List ScriptedBehavior) (log : List Nat),
        (scriptTree .Sequence scripts).tick scriptedTick 3 log =
          .ok (seqSpec (scripts.map ScriptedBehavior.status),
            scriptPool .Sequence scripts, log ++ seqEvaluated scripts)) := by
  constructor
  · intro B Ctx tickB f p h cs ctx hb
    exact tick_comp_seq tickB f ctx hb
  · intro scripts log
    show tick_recursive scriptedTick 3 (scriptPool .Sequence scripts)
      ⟨0, 1⟩ log = _
    rw [show (3 : Nat) = 2 + 1 from rfl,
      tick_root_some scriptedTick 2 log (scriptPool_root .Sequence scripts)
        (by simp [Handle.is_some, Handle.NONE]),
      show (2 : Nat) = 1 + 1 from rfl,
      tick_comp_seq scriptedTick 1 log (scriptPool_comp .Sequence scripts),
      show (1 : Nat) = 0 + 1 from rfl]
    exact seqLoop_scripted (scriptPool_leavesAt .Sequence scripts) 0 log

/-- Witness for C1 at concrete inputs: a Sequence node with no children in a
one-node pool, and the spec's own short-circuit scenario: scripted children
with statuses Success, Running, Success yield Running and the log shows the
third child was never evaluated. -/
theorem spec_C1_witness :
    tick_recursive (fun (b : Unit) (c : Unit) => (Status.Success, b, c)) 1
        ⟨[⟨1, some (.Composite ⟨.Sequence, []⟩)⟩]⟩ ⟨0, 1⟩ () =
      seqLoop
        (tick_recursive (fun (b : Unit) (c : Unit) => (Status.Success, b, c))
          0)
        ⟨[⟨1, some (.Composite ⟨.Sequence, []⟩)⟩]⟩ [] () ∧
    (scriptTree .Sequence [⟨1, .Success⟩, ⟨2, .Running⟩, ⟨3, .Success⟩]).tick
        scriptedTick 3 [] =
      .ok (.Running,
        scriptPool .Sequence [⟨1, .Success⟩, ⟨2, .Running⟩, ⟨3, .Success⟩],
        [1, 2]) := by
  constructor
  · exact spec_C1_sequence_semantics.1 Unit Unit _ 0 _ ⟨0, 1⟩ [] ()
      (by decide)
  · exact (spec_C1_sequence_semantics.2
      [⟨1, .Success⟩, ⟨2, .Running⟩, ⟨3, .Success⟩] []).trans (by rfl)

/-- C2: for every Selector composite node, the tick evaluates the children in
their stored order with short-circuit OR semantics: the first child
returning Success or Running makes that status the composite result and no
later child is evaluated that tick, and if every child returns Failure the
result is Failure. First conjunct: the Selector arm of `tick_recursive` is
exactly the ordered short-circuit loop over the stored children. Second
conjunct: for every list of scripted children, the tick returns the
spec-side OR aggregate of the children's statuses and the invocation log
records exactly the children up to and including the first non-Failure one,
in stored order. -/
theorem spec_C2_selector_semantics :
    (∀ (B Ctx : Type) (tickB : B → Ctx → Status × B × Ctx) (f : Nat)
        (p : Pool (BehaviorNode B)) (h : Handle) (cs : List Handle)
        (ctx : Ctx),
        p.try_borrow h = some (.Composite ⟨.Selector, cs⟩) →
        tick_recursive tickB (f + 1) p h ctx =
          selLoop (tick_recursive tickB f) p cs ctx) ∧
    (∀ (scripts : List ScriptedBehavior) (log : List Nat),
        (scriptTree .Selector scripts).tick scriptedTick 3 log =
          .ok (selSpec (scripts.map ScriptedBehavior.status),
            scriptPool .Selector scripts, log ++ selEvaluated scripts)) := by
  constructor
  · intro B Ctx tickB f p h cs ctx hb
    exact tick_comp_sel tickB f ctx hb
  · intro scripts log
    show tick_recursive scriptedTick 3 (scriptPool .Selector scripts)
      ⟨0, 1⟩ log = _
    rw [show (3 : Nat) = 2 + 1 from rfl,
      tick_root_some scriptedTick 2 log (scriptPool_root .Selector scripts)
        (by simp [Handle.is_some, Handle.NONE]),
      show (2 : Nat) = 1 + 1 from rfl,
      tick_comp_sel scriptedTick 1 log (scriptPool_comp .Selector scripts),
      show (1 : Nat) = 0 + 1 from rfl]
    exact selLoop_scripted (scriptPool_leavesAt .Selector scripts) 0 log

/-- Witness for C2 at concrete inputs: a Selector node with no children in a
one-node pool, and the spec's own first-win scenario: scripted children with
statuses Failure, Running, Success yield Running and the log shows the third
child was never evaluated. -/
theorem spec_C2_witness :
    tick_recursive (fun (b : Unit) (c : Unit) => (Status.Success, b, c)) 1
        ⟨[⟨1, some (.Composite ⟨.Selector, []⟩)⟩]⟩ ⟨0, 1⟩ () =
      selLoop
        (tick_recursive (fun (b : Unit) (c : Unit) => (Status.Success, b, c))
          0)
        ⟨[⟨1, some (.Composite ⟨.Selector, []⟩)⟩]⟩ [] () ∧
    (scriptTree .Selector [⟨1, .Failure⟩, ⟨2, .Running⟩, ⟨3, .Success⟩]).tick
        scriptedTick 3 [] =
      .ok (.Running,
        scriptPool .Selector [⟨1, .Failure⟩, ⟨2, .Running⟩, ⟨3, .Success⟩],
        [1, 2]) := by
  constructor
  · exact spec_C2_selector_semantics.1 Unit Unit _ 0 _ ⟨0, 1⟩ [] ()
      (by decide)
  · exact (spec_C2_selector_semantics.2
      [⟨1, .Failure⟩, ⟨2, .Running⟩, ⟨3, .Success⟩] []).trans (by rfl)

/-- C3: vacuous identities. Ticking a Sequence composite with an empty child
list yields Success; ticking a Selector composite with an empty child list
yields Failure; ticking a root node with a null child handle yields Success;
in particular a tree freshly produced by `new()` ticks to Success. In each
case the arena and the context are returned unchanged. -/
theorem spec_C3_vacuous_identities :
    (∀ (B Ctx : Type) (tickB : B → Ctx → Status × B × Ctx) (f : Nat)
        (p : Pool (BehaviorNode B)) (h : Handle) (ctx : Ctx),
        p.try_borrow h = some (.Composite ⟨.Sequence, []⟩) →
        tick_recursive tickB (f + 1) p h ctx = .ok (.Success, p, ctx)) ∧
    (∀ (B Ctx : Type) (tickB : B → Ctx → Status × B × Ctx) (f : Nat)
        (p : Pool (BehaviorNode B)) (h : Handle) (ctx : Ctx),
        p.try_borrow h = some (.Composite ⟨.Selector, []⟩) →
        tick_recursive tickB (f + 1) p h ctx = .ok (.Failure, p, ctx)) ∧
    (∀ (B Ctx : Type) (tickB : B → Ctx → Status × B × Ctx) (f : Nat)
        (p : Pool (BehaviorNode B)) (h c : Handle) (ctx : Ctx),
        p.try_borrow h = some (.Root ⟨c⟩) → c.is_some = false →
        tick_recursive tickB (f + 1) p h ctx = .ok (.Success, p, ctx)) ∧
    (∀ (B Ctx : Type) (tickB : B → Ctx → Status × B × Ctx) (f : Nat)
        (ctx : Ctx),
        (BehaviorTree.new B).tick tickB (f + 1) ctx =
          .ok (.Success, (BehaviorTree.new B).nodes, ctx)) := by
  refine ⟨?_, ?_, ?_, ?_⟩
  · intro B Ctx tickB f p h ctx hb
    rw [tick_comp_seq tickB f ctx hb]; rfl
  · intro B Ctx tickB f p h ctx hb
    rw [tick_comp_sel tickB f ctx hb]; rfl
  · intro B Ctx tickB f p h c ctx hb hc
    exact tick_root_none tickB f ctx hb hc
  · intro B Ctx tickB f ctx
    have hb : (BehaviorTree.new B).nodes.try_borrow ⟨0, 1⟩ =
        some (.Root ⟨Handle.NONE⟩) := by
      simp [BehaviorTree.new, Pool.empty, Pool.spawn, Pool.try_borrow]
    show tick_recursive tickB (f + 1) (BehaviorTree.new B).nodes ⟨0, 1⟩ ctx = _
    exact tick_root_none tickB f ctx hb (by simp [Handle.is_some])

/-- Witness for C3 at concrete inputs: an empty Sequence, an empty Selector,
a root with the null child handle, and the freshly constructed tree, all over
trivial behaviors. -/
theorem spec_C3_witness :
    tick_recursive (fun (b : Unit) (c : Unit) => (Status.Success, b, c)) 1
        ⟨[⟨1, some (.Composite ⟨.Sequence, []⟩)⟩]⟩ ⟨0, 1⟩ () =
      .ok (.Success, ⟨[⟨1, some (.Composite ⟨.Sequence, []⟩)⟩]⟩, ()) ∧
    tick_recursive (fun (b : Unit) (c : Unit) => (Status.Success, b, c)) 1
        ⟨[⟨1, some (.Composite ⟨.Selector, []⟩)⟩]⟩ ⟨0, 1⟩ () =
      .ok (.Failure, ⟨[⟨1, some (.Composite ⟨.Selector, []⟩)⟩]⟩, ()) ∧
    tick_recursive (fun (b : Unit) (c : Unit) => (Status.Success, b, c)) 1
        ⟨[⟨1, some (.Root ⟨Handle.NONE⟩)⟩]⟩ ⟨0, 1⟩ () =
      .ok (.Success, ⟨[⟨1, some (.Root ⟨Handle.NONE⟩)⟩]⟩, ()) ∧
    (BehaviorTree.new Unit).tick
        (fun (b : Unit) (c : Unit) => (Status.Success, b, c)) 1 () =
      .ok (.Success, (BehaviorTree.new Unit).nodes, ()) :=
  ⟨spec_C3_vacuous_identities.1 Unit Unit _ 0 _ ⟨0, 1⟩ () (by decide),
   spec_C3_vacuous_identities.2.1 Unit Unit _ 0 _ ⟨0, 1⟩ () (by decide),
   spec_C3_vacuous_identities.2.2.1 Unit Unit _ 0 _ ⟨0, 1⟩ Handle.NONE ()
     (by decide) (by decide),
   spec_C3_vacuous_identities.2.2.2 Unit Unit _ 0 ()⟩

/-- C4: for every leaf node reached during a tick, the tree returns exactly
the status produced by the leaf's owned behavior payload's `tick(context)`
call, with no aggregation or transformation applied; the only state changes
are the behavior's own update (written back through its slot) and the
context mutation performed by the behavior itself. -/
theorem spec_C4_leaf_delegation :
    ∀ (B Ctx : Type) (tickB : B → Ctx → Status × B × Ctx) (f : Nat)
      (p : Pool (BehaviorNode B)) (h : Handle) (b : B) (ctx : Ctx),
      p.try_borrow h = some (.Leaf ⟨some b⟩) →
      tick_recursive tickB (f + 1) p h ctx =
        .ok ((tickB b ctx).1,
          p.setPayload h.index (.Leaf ⟨some (tickB b ctx).2.1⟩),
          (tickB b ctx).2.2) := by
  intro B Ctx tickB f p h b ctx hb
  exact tick_leaf tickB f ctx hb

/-- Witness for C4 at a concrete input: a single scripted leaf whose
behavior returns Running; the tick returns Running unchanged. -/
theorem spec_C4_witness :
    tick_recursive scriptedTick 1
        ⟨[⟨1, some (.Leaf ⟨some ⟨7, .Running⟩⟩)⟩]⟩ ⟨0, 1⟩ [] =
      .ok ((scriptedTick ⟨7, .Running⟩ []).1,
        Pool.setPayload ⟨[⟨1, some (.Leaf ⟨some ⟨7, .Running⟩⟩)⟩]⟩ 0
          (.Leaf ⟨some (scriptedTick ⟨7, .Running⟩ []).2.1⟩),
        (scriptedTick ⟨7, .Running⟩ []).2.2) :=
  spec_C4_leaf_delegation ScriptedBehavior (List Nat) scriptedTick 0
    ⟨[⟨1, some (.Leaf ⟨some ⟨7, .Running⟩⟩)⟩]⟩ ⟨0, 1⟩ ⟨7, .Running⟩ []
    (by decide)

/-- Characterization of a successful arena lookup: it returns exactly the
payload of the slot at the handle's index, and only under a matching version
tag. -/
theorem Pool.try_borrow_eq_some {α : Type} {p : Pool α} {h : Handle}
    {a : α} :
    p.try_borrow h = some a ↔
      ∃ r, p.records[h.index]? = some r ∧ r.generation = h.generation ∧
        r.payload = some a := by
  unfold Pool.try_borrow
  cases hrec : p.records[h.index]? with
  | none => simp
  | some r =>
    by_cases hg : r.generation = h.generation
    · simp [hg]
    · simp [hg]

/-- A lookup succeeds exactly on a currently valid handle. -/
theorem Pool.try_borrow_isSome {α : Type} {p : Pool α} {h : Handle} :
    (p.try_borrow h).isSome = true ↔ p.validAt h := by
  unfold Pool.validAt
  cases hb : p.try_borrow h with
  | none =>
    simp only [Option.isSome_none, Bool.false_eq_true, false_iff]
    rintro ⟨r, hrec, hg, hpl⟩
    unfold Pool.try_borrow at hb
    simp only [hrec, if_pos hg] at hb
    rw [hb] at hpl
    cases hpl
  | some a =>
    simp only [Option.isSome_some, true_iff]
    obtain ⟨r, hrec, hg, hpl⟩ := Pool.try_borrow_eq_some.mp hb
    exact ⟨r, hrec, hg, by simp [hpl]⟩

/-- C5: for every handle, `node(handle)` and `node_mut(handle)` return the
stored node exactly when the handle is currently valid; the result is absent
when the handle's index is out of range or its version tag does not match
the stored slot's version; and a successful lookup returns precisely the
payload stored at the handle's index under a matching version tag, so a
handle whose slot was reused under a different version never yields a wrong
node. -/
theorem spec_C5_handle_lookup :
    (∀ (B : Type) (t : BehaviorTree B) (h : Handle),
        (t.node h).isSome = true ↔ t.nodes.validAt h) ∧
    (∀ (B : Type) (t : BehaviorTree B) (h : Handle),
        (t.node_mut h).isSome = true ↔ t.nodes.validAt h) ∧
    (∀ (B : Type) (t : BehaviorTree B) (h : Handle) (n : BehaviorNode B),
        t.node h = some n →
        ∃ r, t.nodes.records[h.index]? = some r ∧
          r.generation = h.generation ∧ r.payload = some n) ∧
    (∀ (B : Type) (t : BehaviorTree B) (h : Handle),
        t.nodes.records.length ≤ h.index → t.node h = none) ∧
    (∀ (B : Type) (t : BehaviorTree B) (h : Handle) (r : PoolRecord (BehaviorNode B)),
        t.nodes.records[h.index]? = some r → r.generation ≠ h.generation →
        t.node h = none) := by
  refine ⟨?_, ?_, ?_, ?_, ?_⟩
  · intro B t h
    exact Pool.try_borrow_isSome
  · intro B t h
    exact Pool.try_borrow_isSome
  · intro B t h n hn
    exact Pool.try_borrow_eq_some.mp hn
  · intro B t h hlen
    show t.nodes.try_borrow h = none
    unfold Pool.try_borrow
    rw [List.getElem?_eq_none hlen]
  · intro B t h r hrec hg
    show t.nodes.try_borrow h = none
    unfold Pool.try_borrow
    simp only [hrec, if_neg hg]

/-- Witness for C5 at concrete inputs: a one-slot arena holding a root node
under version tag 2. The matching handle is valid and returns the stored
node; the out-of-range handle and the stale handle (same index, version
tag 1) both return absent. -/
theorem spec_C5_witness :
    ((genTree.node ⟨0, 2⟩).isSome = true ↔ genPool.validAt ⟨0, 2⟩) ∧
    (∃ r, genPool.records[(0 : Nat)]? = some r ∧
      r.generation = 2 ∧ r.payload = some (.Root ⟨Handle.NONE⟩)) ∧
    genTree.node ⟨5, 2⟩ = none ∧
    genTree.node ⟨0, 1⟩ = none :=
  ⟨spec_C5_handle_lookup.1 Unit genTree ⟨0, 2⟩,
   spec_C5_handle_lookup.2.2.1 Unit genTree ⟨0, 2⟩
      (.Root ⟨Handle.NONE⟩) (by decide),
   spec_C5_handle_lookup.2.2.2.1 Unit genTree ⟨5, 2⟩ (by decide),
   spec_C5_handle_lookup.2.2.2.2 Unit genTree ⟨0, 1⟩
      ⟨2, some (.Root ⟨Handle.NONE⟩)⟩ (by decide) (by decide)⟩

/-- Appending slots to the arena preserves every successful lookup. -/
theorem Pool.try_borrow_append {α : Type} {p : Pool α} {h : Handle} {a : α}
    (hb : p.try_borrow h = some a) (l : List (PoolRecord α)) :
    (⟨p.records ++ l⟩ : Pool α).try_borrow h = some a := by
  obtain ⟨r, hrec, hg, hpl⟩ := Pool.try_borrow_eq_some.mp hb
  refine Pool.try_borrow_eq_some.mpr ⟨r, ?_, hg, hpl⟩
  have hlt : h.index < p.records.length := by
    by_contra hge
    rw [List.getElem?_eq_none (Nat.le_of_not_lt hge)] at hrec
    cases hrec
  show (p.records ++ l)[h.index]? = some r
  rw [List.getElem?_append_left hlt]
  exact hrec

/-- Overwriting the payload of the slot a valid handle points at makes a
subsequent lookup through that handle return the new payload. -/
theorem Pool.try_borrow_setPayload_self {α : Type} {p : Pool α} {h : Handle}
    {a : α} (hb : p.try_borrow h = some a) (b : α) :
    (p.setPayload h.index b).try_borrow h = some b := by
  obtain ⟨r, hrec, hg, _⟩ := Pool.try_borrow_eq_some.mp hb
  have hlt : h.index < p.records.length := by
    by_contra hge
    rw [List.getElem?_eq_none (Nat.le_of_not_lt hge)] at hrec
    cases hrec
  refine Pool.try_borrow_eq_some.mpr ⟨⟨r.generation, some b⟩, ?_, hg, rfl⟩
  unfold Pool.setPayload
  simp only [hrec]
  simp [List.getElem?_set, hlt]

/-- The freshly constructed tree satisfies the root-slot invariant. -/
theorem rootOk_new (B : Type) : rootOk (BehaviorTree.new B) :=
  ⟨Handle.NONE, by simp [BehaviorTree.new, Pool.empty, Pool.spawn,
    Pool.try_borrow]⟩

/-- Adding a node preserves the root-slot invariant. -/
theorem rootOk_add {B : Type} {t : BehaviorTree B} (hr : rootOk t)
    (n : BehaviorNode B) : rootOk (t.add_node n).1 := by
  obtain ⟨c, hc⟩ := hr
  exact ⟨c, Pool.try_borrow_append hc _⟩

/-- Under the root-slot invariant, `set_entry_node` succeeds and rewires the
root's child. -/
theorem set_entry_node_of_rootOk {B : Type} {t : BehaviorTree B}
    (hr : rootOk t) (e : Handle) :
    t.set_entry_node e =
      some ⟨t.nodes.setPayload t.root.index (.Root ⟨e⟩), t.root⟩ := by
  obtain ⟨c, hc⟩ := hr
  unfold BehaviorTree.set_entry_node
  simp only [hc]

/-- A successful `set_entry_node` preserves the root-slot invariant. -/
theorem rootOk_set {B : Type} {t t' : BehaviorTree B} {e : Handle}
    (hs : t.set_entry_node e = some t') : rootOk t' := by
  unfold BehaviorTree.set_entry_node at hs
  cases hb : t.nodes.try_borrow t.root with
  | none => simp [hb] at hs
  | some n =>
    cases n with
    | Root r =>
        simp only [hb, Option.some.injEq] at hs
        subst hs
        exact ⟨e, Pool.try_borrow_setPayload_self hb _⟩
    | Unknown => simp [hb] at hs
    | Composite c => simp [hb] at hs
    | Leaf l => simp [hb] at hs

/-- Every tree built through the API satisfies the root-slot invariant. -/
theorem built_rootOk {B : Type} {t : BehaviorTree B} (hb : Built B t) :
    rootOk t := by
  induction hb with
  | new => exact rootOk_new B
  | add t n _ ih => exact rootOk_add ih n
  | set t t' e _ hs _ => exact rootOk_set hs

/-- C6: `set_entry_node(handle)` overwrites the root node's child with the
given handle whenever it succeeds; for any tree produced only through the
API (`new`, `add_node`, `set_entry_node`) the root slot always holds a Root
variant, so the operation always succeeds and the abort branch is
unreachable; and when the root slot does not hold a Root variant the
operation aborts (returns the panic value) rather than silently
proceeding. -/
theorem spec_C6_set_entry_node :
    (∀ (B : Type) (t t' : BehaviorTree B) (e : Handle),
        t.set_entry_node e = some t' →
        t'.root = t.root ∧
        t'.nodes.try_borrow t.root = some (.Root ⟨e⟩)) ∧
    (∀ (B : Type) (t : BehaviorTree B), Built B t →
        ∀ e, (t.set_entry_node e).isSome = true) ∧
    (∀ (B : Type) (t : BehaviorTree B) (e : Handle),
        (∀ c, t.nodes.try_borrow t.root ≠ some (.Root ⟨c⟩)) →
        t.set_entry_node e = none) := by
  refine ⟨?_, ?_, ?_⟩
  · intro B t t' e hs
    have hr : rootOk t := by
      unfold BehaviorTree.set_entry_node at hs
      cases hb : t.nodes.try_borrow t.root with
      | none => simp [hb] at hs
      | some n =>
        cases n with
        | Root r => exact ⟨r.child, by rw [hb]⟩
        | Unknown => simp [hb] at hs
        | Composite c => simp [hb] at hs
        | Leaf l => simp [hb] at hs
    obtain ⟨c, hc⟩ := hr
    rw [set_entry_node_of_rootOk ⟨c, hc⟩ e] at hs
    cases hs
    exact ⟨rfl, Pool.try_borrow_setPayload_self hc _⟩
  · intro B t hb e
    rw [set_entry_node_of_rootOk (built_rootOk hb) e]
    rfl
  · intro B t e hnr
    unfold BehaviorTree.set_entry_node
    cases hb : t.nodes.try_borrow t.root with
    | none => rfl
    | some n =>
      cases n with
      | Root r => exact absurd hb (hnr r.child)
      | Unknown => rfl
      | Composite c => rfl
      | Leaf l => rfl

/-- Witness for C6 at concrete inputs: rewiring the fresh tree's entry to a
concrete handle succeeds and stores it; the fresh tree (a `Built` tree) never
hits the abort; a corrupted tree whose root slot holds a leaf aborts. -/
theorem spec_C6_witness :
    ((BehaviorTree.new Unit).set_entry_node ⟨5, 7⟩ =
        some ⟨⟨[⟨1, some (.Root ⟨⟨5, 7⟩⟩)⟩]⟩, ⟨0, 1⟩⟩ →
      (⟨⟨[⟨1, some (.Root ⟨⟨5, 7⟩⟩)⟩]⟩, ⟨0, 1⟩⟩ :
          BehaviorTree Unit).root = (BehaviorTree.new Unit).root ∧
      (⟨[⟨1, some (.Root ⟨⟨5, 7⟩⟩)⟩]⟩ : Pool (BehaviorNode Unit)).try_borrow
          (BehaviorTree.new Unit).root = some (.Root ⟨⟨5, 7⟩⟩)) ∧
    ((BehaviorTree.new Unit).set_entry_node ⟨5, 7⟩ =
        some ⟨⟨[⟨1, some (.Root ⟨⟨5, 7⟩⟩)⟩]⟩, ⟨0, 1⟩⟩) ∧
    ((BehaviorTree.new Unit).set_entry_node ⟨5, 7⟩).isSome = true ∧
    (⟨⟨[⟨1, some (.Leaf ⟨none⟩)⟩]⟩, ⟨0, 1⟩⟩ :
        BehaviorTree Unit).set_entry_node ⟨2, 2⟩ = none :=
  ⟨spec_C6_set_entry_node.1 Unit (BehaviorTree.new Unit)
      ⟨⟨[⟨1, some (.Root ⟨⟨5, 7⟩⟩)⟩]⟩, ⟨0, 1⟩⟩ ⟨5, 7⟩,
   by decide,
   spec_C6_set_entry_node.2.1 Unit (BehaviorTree.new Unit) Built.new ⟨5, 7⟩,
   spec_C6_set_entry_node.2.2 Unit ⟨⟨[⟨1, some (.Leaf ⟨none⟩)⟩]⟩, ⟨0, 1⟩⟩
      ⟨2, 2⟩ (by intro c hc; injection hc with h1; cases h1)⟩

/-- The shape of a node determines whether it is Unknown. -/
theorem nodeShape_eq_unknown {B : Type} {n : BehaviorNode B} :
    nodeShape n = .Unknown ↔ n = .Unknown := by
  cases n <;> simp [nodeShape]

/-- Writing back a payload of the same shape as the stored one preserves the
arena's shape. -/
theorem poolShape_setPayload {B : Type} {p : Pool (BehaviorNode B)}
    {h : Handle} {a : BehaviorNode B} (b : BehaviorNode B)
    (hb : p.try_borrow h = some a) (hsh : nodeShape b = nodeShape a) :
    poolShape (p.setPayload h.index b) = poolShape p := by
  obtain ⟨r, hrec, hg, hpl⟩ := Pool.try_borrow_eq_some.mp hb
  unfold Pool.setPayload
  simp only [hrec]
  unfold poolShape
  simp only [List.map_set]
  congr 1
  apply list_set_of_getElem?
  rw [List.getElem?_map, hrec]
  simp [recordShape, hpl, hsh]

/-- The Sequence loop preserves the arena's shape whenever its child tick
does. -/
theorem seqLoop_shape {B Ctx : Type}
    (tick1 : Pool (BehaviorNode B) → Handle → Ctx →
      Except TickErr (Status × Pool (BehaviorNode B) × Ctx))
    (H : ∀ p h ctx s p' ctx', tick1 p h ctx = .ok (s, p', ctx') →
      poolShape p' = poolShape p) :
    ∀ (hs : List Handle) (p : Pool (BehaviorNode B)) (ctx : Ctx)
      (s : Status) (p' : Pool (BehaviorNode B)) (ctx' : Ctx),
      seqLoop tick1 p hs ctx = .ok (s, p', ctx') →
      poolShape p' = poolShape p := by
  intro hs
  induction hs with
  | nil =>
    intro p ctx s p' ctx' hl
    simp only [seqLoop, Except.ok.injEq, Prod.mk.injEq] at hl
    rw [← hl.2.1]
  | cons c rest ih =>
    intro p ctx s p' ctx' hl
    simp only [seqLoop] at hl
    cases hcall : tick1 p c ctx with
    | error e => simp [hcall] at hl
    | ok r =>
      obtain ⟨s1, p1, ctx1⟩ := r
      have hsh1 := H p c ctx s1 p1 ctx1 hcall
      cases s1 with
      | Failure =>
          simp only [hcall, Except.ok.injEq, Prod.mk.injEq] at hl
          rw [← hl.2.1]; exact hsh1
      | Running =>
          simp only [hcall, Except.ok.injEq, Prod.mk.injEq] at hl
          rw [← hl.2.1]; exact hsh1
      | Success =>
          simp only [hcall] at hl
          exact (ih p1 ctx1 s p' ctx' hl).trans hsh1

/-- The Selector loop preserves the arena's shape whenever its child tick
does. -/
theorem selLoop_shape {B Ctx : Type}
    (tick1 : Pool (BehaviorNode B) → Handle → Ctx →
      Except TickErr (Status × Pool (BehaviorNode B) × Ctx))
    (H : ∀ p h ctx s p' ctx', tick1 p h ctx = .ok (s, p', ctx') →
      poolShape p' = poolShape p) :
    ∀ (hs : List Handle) (p : Pool (BehaviorNode B)) (ctx : Ctx)
      (s : Status) (p' : Pool (BehaviorNode B)) (ctx' : Ctx),
      selLoop tick1 p hs ctx = .ok (s, p', ctx') →
      poolShape p' = poolShape p := by
  intro hs
  induction hs with
  | nil =>
    intro p ctx s p' ctx' hl
    simp only [selLoop, Except.ok.injEq, Prod.mk.injEq] at hl
    rw [← hl.2.1]
  | cons c rest ih =>
    intro p ctx s p' ctx' hl
    simp only [selLoop] at hl
    cases hcall : tick1 p c ctx with
    | error e => simp [hcall] at hl
    | ok r =>
      obtain ⟨s1, p1, ctx1⟩ := r
      have hsh1 := H p c ctx s1 p1 ctx1 hcall
      cases s1 with
      | Success =>
          simp only [hcall, Except.ok.injEq, Prod.mk.injEq] at hl
          rw [← hl.2.1]; exact hsh1
      | Running =>
          simp only [hcall, Except.ok.injEq, Prod.mk.injEq] at hl
          rw [← hl.2.1]; exact hsh1
      | Failure =>
          simp only [hcall] at hl
          exact (ih p1 ctx1 s p' ctx' hl).trans hsh1

/-- A tick that returns a status preserves the arena's shape: only leaf
behavior values (and the context) can change. -/
theorem tick_shape {B Ctx : Type} (tickB : B → Ctx → Status × B × Ctx) :
    ∀ (fuel : Nat) (p : Pool (BehaviorNode B)) (h : Handle) (ctx : Ctx)
      (s : Status) (p' : Pool (BehaviorNode B)) (ctx' : Ctx),
      tick_recursive tickB fuel p h ctx = .ok (s, p', ctx') →
      poolShape p' = poolShape p := by
  intro fuel
  induction fuel with
  | zero =>
    intro p h ctx s p' ctx' ht
    simp [tick_recursive] at ht
  | succ f ih =>
    intro p h ctx s p' ctx' ht
    cases hb : p.try_borrow h with
    | none => rw [tick_invalid tickB f ctx hb] at ht; cases ht
    | some n =>
      cases n with
      | Root r =>
          obtain ⟨c⟩ := r
          cases hc : c.is_some with
          | true =>
              rw [tick_root_some tickB f ctx hb hc] at ht
              exact ih p c ctx s p' ctx' ht
          | false =>
              rw [tick_root_none tickB f ctx hb hc] at ht
              simp only [Except.ok.injEq, Prod.mk.injEq] at ht
              rw [← ht.2.1]
      | Composite comp =>
          obtain ⟨kind, cs⟩ := comp
          cases kind with
          | Sequence =>
              rw [tick_comp_seq tickB f ctx hb] at ht
              exact seqLoop_shape (tick_recursive tickB f)
                (fun p h ctx s p' ctx' => ih p h ctx s p' ctx')
                cs p ctx s p' ctx' ht
          | Selector =>
              rw [tick_comp_sel tickB f ctx hb] at ht
              exact selLoop_shape (tick_recursive tickB f)
                (fun p h ctx s p' ctx' => ih p h ctx s p' ctx')
                cs p ctx s p' ctx' ht
      | Leaf l =>
          obtain ⟨ob⟩ := l
          cases ob with
          | none => rw [tick_leaf_missing tickB f ctx hb] at ht; cases ht
          | some b =>
              rw [tick_leaf tickB f ctx hb] at ht
              simp only [Except.ok.injEq, Prod.mk.injEq] at ht
              rw [← ht.2.1]
              exact poolShape_setPayload _ hb (by simp [nodeShape])
      | Unknown => rw [tick_unknown tickB f ctx hb] at ht; cases ht

/-- C7 counterexample: a concrete tree with one leaf whose behavior
increments its own stored state. One tick succeeds but the arena after the
tick differs from the arena before it: the leaf's stored behavior changed
from 0 to 1, so a tick does not leave every node's stored content
unchanged. -/
theorem spec_C7_counterexample :
    counterTree.tick counterTick 2 () = .ok (.Success, counterPoolAfter, ())
      ∧ counterPoolAfter ≠ counterTree.nodes := by
  exact ⟨by rfl, by decide⟩

/-- C7 (amended): a tick that returns a status never changes the tree's
topology: the arena keeps its slot count, version tags, every node's
variant, the root child handle, composite kinds and child lists, and leaf
payload presence; only the values of leaf behavior payloads and the
external context may be mutated (by leaf behaviors). -/
theorem spec_C7_tick_preserves_topology :
    ∀ (B Ctx : Type) (tickB : B → Ctx → Status × B × Ctx) (fuel : Nat)
      (t : BehaviorTree B) (ctx : Ctx) (s : Status)
      (p' : Pool (BehaviorNode B)) (ctx' : Ctx),
      t.tick tickB fuel ctx = .ok (s, p', ctx') →
      poolShape p' = poolShape t.nodes := by
  intro B Ctx tickB fuel t ctx s p' ctx' ht
  exact tick_shape tickB fuel t.nodes t.root ctx s p' ctx' ht

/-- Witness for C7 at a concrete input: the counterexample tree's tick
returns Success with a changed arena, whose shape nevertheless equals the
original arena's shape. -/
theorem spec_C7_witness :
    poolShape counterPoolAfter = poolShape counterTree.nodes :=
  spec_C7_tick_preserves_topology Nat Unit counterTick 2 counterTree ()
    .Success counterPoolAfter () (by rfl)

/-- Unknown-freeness is a property of the arena's shape. -/
theorem noUnknown_poolShape {B : Type} {p : Pool (BehaviorNode B)} :
    (poolShape p).noUnknown ↔ p.noUnknown := by
  unfold Pool.noUnknown poolShape
  constructor
  · intro H r hr hpl
    have hmem : recordShape r ∈ p.records.map recordShape :=
      List.mem_map_of_mem recordShape hr
    apply H (recordShape r) hmem
    simp [recordShape, hpl, nodeShape]
  · intro H r' hr' hpl'
    obtain ⟨r, hr, rfl⟩ := List.mem_map.mp hr'
    simp only [recordShape] at hpl'
    obtain ⟨n, hn, hsh⟩ := Option.map_eq_some'.mp hpl'
    exact H r hr (by rw [hn, nodeShape_eq_unknown.mp hsh])

/-- Unknown-freeness transfers along shape equality. -/
theorem Pool.noUnknown_of_shape {B : Type} {p p' : Pool (BehaviorNode B)}
    (hsh : poolShape p' = poolShape p) (hnu : p.noUnknown) : p'.noUnknown :=
  noUnknown_poolShape.mp (hsh ▸ noUnknown_poolShape.mpr hnu)

/-- The Sequence loop over an Unknown-free arena never reports an Unknown
node, provided its child tick has that property and preserves shape. -/
theorem seqLoop_no_unknown {B Ctx : Type}
    (tick1 : Pool (BehaviorNode B) → Handle → Ctx →
      Except TickErr (Status × Pool (BehaviorNode B) × Ctx))
    (Hs : ∀ p h ctx s p' ctx', tick1 p h ctx = .ok (s, p', ctx') →
      poolShape p' = poolShape p)
    (Hu : ∀ p h ctx, p.noUnknown → tick1 p h ctx ≠ .error .unknownNode) :
    ∀ (hs : List Handle) (p : Pool (BehaviorNode B)) (ctx : Ctx),
      p.noUnknown → seqLoop tick1 p hs ctx ≠ .error .unknownNode := by
  intro hs
  induction hs with
  | nil => intro p ctx hnu hl; simp [seqLoop] at hl
  | cons c rest ih =>
    intro p ctx hnu hl
    simp only [seqLoop] at hl
    cases hcall : tick1 p c ctx with
    | error e =>
        simp only [hcall, Except.error.injEq] at hl
        rw [hl] at hcall
        exact Hu p c ctx hnu hcall
    | ok r =>
      obtain ⟨s1, p1, ctx1⟩ := r
      have hnu1 :=
        Pool.noUnknown_of_shape (Hs p c ctx s1 p1 ctx1 hcall) hnu
      cases s1 with
      | Failure => simp [hcall] at hl
      | Running => simp [hcall] at hl
      | Success =>
          simp only [hcall] at hl
          exact ih p1 ctx1 hnu1 hl

/-- The Selector loop over an Unknown-free arena never reports an Unknown
node, provided its child tick has that property and preserves shape. -/
theorem selLoop_no_unknown {B Ctx : Type}
    (tick1 : Pool (BehaviorNode B) → Handle → Ctx →
      Except TickErr (Status × Pool (BehaviorNode B) × Ctx))
    (Hs : ∀ p h ctx s p' ctx', tick1 p h ctx = .ok (s, p', ctx') →
      poolShape p' = poolShape p)
    (Hu : ∀ p h ctx, p.noUnknown → tick1 p h ctx ≠ .error .unknownNode) :
    ∀ (hs : List Handle) (p : Pool (BehaviorNode B)) (ctx : Ctx),
      p.noUnknown → selLoop tick1 p hs ctx ≠ .error .unknownNode := by
  intro hs
  induction hs with
  | nil => intro p ctx hnu hl; simp [selLoop] at hl
  | cons c rest ih =>
    intro p ctx hnu hl
    simp only [selLoop] at hl
    cases hcall : tick1 p c ctx with
    | error e =>
        simp only [hcall, Except.error.injEq] at hl
        rw [hl] at hcall
        exact Hu p c ctx hnu hcall
    | ok r =>
      obtain ⟨s1, p1, ctx1⟩ := r
      have hnu1 :=
        Pool.noUnknown_of_shape (Hs p c ctx s1 p1 ctx1 hcall) hnu
      cases s1 with
      | Success => simp [hcall] at hl
      | Running => simp [hcall] at hl
      | Failure =>
          simp only [hcall] at hl
          exact ih p1 ctx1 hnu1 hl

/-- A tick over an Unknown-free arena never reports an Unknown node. -/
theorem tick_no_unknown {B Ctx : Type} (tickB : B → Ctx → Status × B × Ctx) :
    ∀ (fuel : Nat) (p : Pool (BehaviorNode B)) (h : Handle) (ctx : Ctx),
      p.noUnknown → tick_recursive tickB fuel p h ctx ≠ .error .unknownNode := by
  intro fuel
  induction fuel with
  | zero => intro p h ctx hnu ht; simp [tick_recursive] at ht
  | succ f ih =>
    intro p h ctx hnu ht
    cases hb : p.try_borrow h with
    | none => rw [tick_invalid tickB f ctx hb] at ht; simp at ht
    | some n =>
      cases n with
      | Root r =>
          obtain ⟨c⟩ := r
          cases hc : c.is_some with
          | true =>
              rw [tick_root_some tickB f ctx hb hc] at ht
              exact ih p c ctx hnu ht
          | false => rw [tick_root_none tickB f ctx hb hc] at ht; simp at ht
      | Composite comp =>
          obtain ⟨kind, cs⟩ := comp
          cases kind with
          | Sequence =>
              rw [tick_comp_seq tickB f ctx hb] at ht
              exact seqLoop_no_unknown (tick_recursive tickB f)
                (fun p h ctx s p' ctx' => tick_shape tickB f p h ctx s p' ctx')
                (fun p h ctx => ih p h ctx) cs p ctx hnu ht
          | Selector =>
              rw [tick_comp_sel tickB f ctx hb] at ht
              exact selLoop_no_unknown (tick_recursive tickB f)
                (fun p h ctx s p' ctx' => tick_shape tickB f p h ctx s p' ctx')
                (fun p h ctx => ih p h ctx) cs p ctx hnu ht
      | Leaf l =>
          obtain ⟨ob⟩ := l
          cases ob with
          | none => rw [tick_leaf_missing tickB f ctx hb] at ht; simp at ht
          | some b => rw [tick_leaf tickB f ctx hb] at ht; simp at ht
      | Unknown =>
          obtain ⟨r, hrec, _, hpl⟩ := Pool.try_borrow_eq_some.mp hb
          exact hnu r (List.getElem?_mem hrec) hpl

/-- Every tree built through the API from non-Unknown nodes has an
Unknown-free arena. -/
theorem builtNU_noUnknown {B : Type} {t : BehaviorTree B}
    (hb : BuiltNU B t) : t.nodes.noUnknown := by
  induction hb with
  | new =>
      intro r hr hpl
      simp only [BehaviorTree.new, Pool.empty, Pool.spawn, List.nil_append,
        List.mem_singleton] at hr
      rw [hr] at hpl
      cases hpl
  | add t n hbn hnu ih =>
      intro r hr hpl
      simp only [BehaviorTree.add_node, Pool.spawn, List.mem_append,
        List.mem_singleton] at hr
      cases hr with
      | inl h => exact ih r h hpl
      | inr h =>
          rw [h] at hpl
          simp only [Option.some.injEq] at hpl
          exact hnu hpl
  | set t t' e hbn hs ih =>
      unfold BehaviorTree.set_entry_node at hs
      cases hbr : t.nodes.try_borrow t.root with
      | none => simp [hbr] at hs
      | some m =>
        cases m with
        | Root r0 =>
            simp only [hbr, Option.some.injEq] at hs
            subst hs
            intro r hr hpl
            unfold Pool.setPayload at hr
            cases hrec : t.nodes.records[t.root.index]? with
            | none => simp only [hrec] at hr; exact ih r hr hpl
            | some r1 =>
                simp only [hrec] at hr
                cases List.mem_or_eq_of_mem_set hr with
                | inl h => exact ih r h hpl
                | inr h => rw [h] at hpl; cases hpl
        | Unknown => simp [hbr] at hs
        | Composite c0 => simp [hbr] at hs
        | Leaf l0 => simp [hbr] at hs

/-- C8: reaching an Unknown node variant during a tick aborts the operation
(the `unreachable!()` panic, modelled as an error value) rather than
returning any Status; and for a tree correctly assembled through
`new`/`add_node`/`set_entry_node` from non-Unknown nodes this abort branch
is never reached. -/
theorem spec_C8_unknown_abort :
    (∀ (B Ctx : Type) (tickB : B → Ctx → Status × B × Ctx) (f : Nat)
        (p : Pool (BehaviorNode B)) (h : Handle) (ctx : Ctx),
        p.try_borrow h = some .Unknown →
        tick_recursive tickB (f + 1) p h ctx = .error .unknownNode) ∧
    (∀ (B Ctx : Type) (tickB : B → Ctx → Status × B × Ctx)
        (t : BehaviorTree B), BuiltNU B t →
        ∀ (fuel : Nat) (ctx : Ctx),
          t.tick tickB fuel ctx ≠ .error .unknownNode) := by
  constructor
  · intro B Ctx tickB f p h ctx hb
    exact tick_unknown tickB f ctx hb
  · intro B Ctx tickB t hbt fuel ctx
    exact tick_no_unknown tickB fuel t.nodes t.root ctx
      (builtNU_noUnknown hbt)

/-- Witness for C8 at concrete inputs: a pool whose only slot is Unknown
aborts with the Unknown-node panic, and the freshly constructed tree (built
through the API) never reports an Unknown node. -/
theorem spec_C8_witness :
    tick_recursive (fun (b : Unit) (c : Unit) => (Status.Success, b, c)) 1
        ⟨[⟨1, some .Unknown⟩]⟩ ⟨0, 1⟩ () = .error .unknownNode ∧
    (BehaviorTree.new Unit).tick
        (fun (b : Unit) (c : Unit) => (Status.Success, b, c)) 1 () ≠
      .error .unknownNode :=
  ⟨spec_C8_unknown_abort.1 Unit Unit _ 0 ⟨[⟨1, some .Unknown⟩]⟩ ⟨0, 1⟩ ()
      (by decide),
   spec_C8_unknown_abort.2 Unit Unit _ (BehaviorTree.new Unit) BuiltNU.new
      1 ()⟩

/-- C9: on a non-empty command stack whose cursor is None (for instance
after undoing every command), a redo call sets the cursor to index 1 and
executes the command stored at index 0, whereas an undo at cursor 0 reverts
the command at index 0 and sets the cursor to None — redo's cursor
initialization to 1 is asymmetric with undo's decrement to 0/None. -/
theorem spec_C9_redo_undo_asymmetry :
    ∀ (C Ctx : Type) (execC revertC : C → Ctx → C × Ctx) (c : C)
      (rest : List C) (ctx : Ctx),
      CommandStack.redo execC ⟨c :: rest, none⟩ ctx =
        (⟨(execC c ctx).1 :: rest, some 1⟩, (execC c ctx).2) ∧
      CommandStack.undo revertC ⟨c :: rest, some 0⟩ ctx =
        (⟨(revertC c ctx).1 :: rest, none⟩, (revertC c ctx).2) := by
  intro C Ctx execC revertC c rest ctx
  constructor
  · simp [CommandStack.redo]
  · simp [CommandStack.undo]

/-- C10: where `node()` and `node_mut()` surface an invalid handle as an
absent result, a tick that reaches an invalid or stale handle — as the node
being ticked (in particular the root slot) or as a composite child —
aborts with the indexing panic instead of returning a Status or skipping
the node; ticking a leaf whose optional behavior payload is absent aborts
with the `unwrap` panic; and indexing the tree by an invalid handle through
the `Index`/`IndexMut` operators is the same panicking lookup. -/
theorem spec_C10_panic_paths :
    (∀ (B Ctx : Type) (tickB : B → Ctx → Status × B × Ctx) (f : Nat)
        (p : Pool (BehaviorNode B)) (h : Handle) (ctx : Ctx),
        p.try_borrow h = none →
        tick_recursive tickB (f + 1) p h ctx = .error .invalidHandle) ∧
    (∀ (B Ctx : Type) (tickB : B → Ctx → Status × B × Ctx) (f : Nat)
        (t : BehaviorTree B) (ctx : Ctx),
        t.nodes.try_borrow t.root = none →
        t.tick tickB (f + 1) ctx = .error .invalidHandle) ∧
    (∀ (B Ctx : Type) (tickB : B → Ctx → Status × B × Ctx) (f : Nat)
        (p : Pool (BehaviorNode B)) (h c : Handle)
        (kind : CompositeNodeKind) (cs : List Handle) (ctx : Ctx),
        p.try_borrow h = some (.Composite ⟨kind, c :: cs⟩) →
        p.try_borrow c = none →
        tick_recursive tickB (f + 2) p h ctx = .error .invalidHandle) ∧
    (∀ (B Ctx : Type) (tickB : B → Ctx → Status × B × Ctx) (f : Nat)
        (p : Pool (BehaviorNode B)) (h : Handle) (ctx : Ctx),
        p.try_borrow h = some (.Leaf ⟨none⟩) →
        tick_recursive tickB (f + 1) p h ctx = .error .missingBehavior) ∧
    (∀ (B : Type) (t : BehaviorTree B) (h : Handle),
        t.nodes.try_borrow h = none → t.indexOp h = none) := by
  refine ⟨?_, ?_, ?_, ?_, ?_⟩
  · intro B Ctx tickB f p h ctx hb
    exact tick_invalid tickB f ctx hb
  · intro B Ctx tickB f t ctx hb
    exact tick_invalid tickB f ctx hb
  · intro B Ctx tickB f p h c kind cs ctx hb hc
    cases kind with
    | Sequence =>
        rw [tick_comp_seq tickB (f + 1) ctx hb]
        simp only [seqLoop, tick_invalid tickB f ctx hc]
    | Selector =>
        rw [tick_comp_sel tickB (f + 1) ctx hb]
        simp only [selLoop, tick_invalid tickB f ctx hc]
  · intro B Ctx tickB f p h ctx hb
    exact tick_leaf_missing tickB f ctx hb
  · intro B t h hb
    exact hb

/-- Witness for C10 at concrete inputs: the empty arena's tick panics on its
root handle, a composite child pointing at a missing slot panics, a leaf
with an absent behavior panics on the `unwrap`, and indexing an empty tree
panics. -/
theorem spec_C10_witness :
    tick_recursive (fun (b : Unit) (c : Unit) => (Status.Success, b, c)) 1
        ⟨[]⟩ ⟨0, 1⟩ () = .error .invalidHandle ∧
    BehaviorTree.tick (fun (b : Unit) (c : Unit) => (Status.Success, b, c)) 1
        ⟨⟨[]⟩, ⟨0, 1⟩⟩ () = .error .invalidHandle ∧
    tick_recursive (fun (b : Unit) (c : Unit) => (Status.Success, b, c)) 2
        ⟨[⟨1, some (.Composite ⟨.Sequence, [⟨5, 1⟩]⟩)⟩]⟩ ⟨0, 1⟩ () =
      .error .invalidHandle ∧
    tick_recursive (fun (b : Unit) (c : Unit) => (Status.Success, b, c)) 1
        ⟨[⟨1, some (.Leaf ⟨none⟩)⟩]⟩ ⟨0, 1⟩ () = .error .missingBehavior ∧
    BehaviorTree.indexOp (B := Unit) ⟨⟨[]⟩, ⟨0, 1⟩⟩ ⟨3, 1⟩ = none :=
  ⟨spec_C10_panic_paths.1 Unit Unit _ 0 ⟨[]⟩ ⟨0, 1⟩ () (by decide),
   spec_C10_panic_paths.2.1 Unit Unit _ 0 ⟨⟨[]⟩, ⟨0, 1⟩⟩ () (by decide),
   spec_C10_panic_paths.2.2.1 Unit Unit _ 0
      ⟨[⟨1, some (.Composite ⟨.Sequence, [⟨5, 1⟩]⟩)⟩]⟩ ⟨0, 1⟩ ⟨5, 1⟩
      .Sequence [] () (by decide) (by decide),
   spec_C10_panic_paths.2.2.2.1 Unit Unit _ 0 ⟨[⟨1, some (.Leaf ⟨none⟩)⟩]⟩
      ⟨0, 1⟩ () (by decide),
   spec_C10_panic_paths.2.2.2.2 Unit ⟨⟨[]⟩, ⟨0, 1⟩⟩ ⟨3, 1⟩ (by decide)⟩

end Fyrox
